import Mathlib

/-!
Shallow embedding of the kmdnd combat-engine core (kmdnd_server), covering the
encounter state machine, the operation ledger, the violation engine and the
interaction resolver (attack and Fireball spell).

Modelling conventions:
* `f32` values (distances, movement feet) are modelled as `Rat`; the Euclidean
  `Position::distance` (which uses `f32::sqrt`) is abstracted as an explicit
  `dist : Position → Position → Rat` parameter threaded to the functions that
  call it, so every theorem quantifies over the distance function.
* `i32` values (hit points, armor class, speed, roll results) are modelled as
  `Int`; Rust's truncating integer division is `Int.tdiv`.
* `DateTime<Utc>` timestamps are modelled as `Nat`; they only matter as
  compare-and-swap tokens (`modified_at`) and are supplied by callers as `now`
  arguments.  MongoDB id generation (`TypedId::new`) is modelled by explicit
  fresh-id arguments.
* The document store is a `Store` of three lists; lists are kept newest-first,
  matching the `sort created_at: -1` options on every scan in the source, so
  insertion is list cons and "most recently created" is the list head.
* Every db/manager function is written state-passing,
  `Store → ... → Store × Except Error α`, so that an early error provably
  leaves the store exactly as it was at that point of the control flow.
* Rust's stable `sort_by_key` is modelled by `List.insertionSort`, which is
  also a stable sort and therefore produces the identical output list.
-/

namespace Kmdnd

abbrev CampaignId := Nat
abbrev CharacterId := Nat
abbrev EncounterId := Nat
abbrev OperationId := Nat
abbrev InteractionId := Nat
abbrev Timestamp := Nat

/-- 3-D point; `f32` coordinates modelled as `Rat`. -/
structure Position where
  x : Rat
  y : Rat
  z : Rat
deriving DecidableEq, Repr

/-- The roll-type tags of `kmdnd_server/src/operation/mod.rs` (`enum RollType`). -/
inductive RollType
  | initiative
  | strengthCheck
  | dexterityCheck
  | constitutionCheck
  | intelligenceCheck
  | wisdomCheck
  | charismaCheck
  | acrobaticsCheck
  | animalHandlingCheck
  | arcanaCheck
  | athleticsCheck
  | deceptionCheck
  | historyCheck
  | insightCheck
  | intimidationCheck
  | investigationCheck
  | medicineCheck
  | natureCheck
  | perceptionCheck
  | performanceCheck
  | persuasionCheck
  | religionCheck
  | sleightOfHandCheck
  | stealthCheck
  | survivalCheck
  | strengthSave
  | dexteritySave
  | constitutionSave
  | intelligenceSave
  | wisdomSave
  | charismaSave
  | hit
  | damage
deriving DecidableEq, Repr

/-- `struct Interaction` of `operation/mod.rs`: a pending or resolved dice roll. -/
structure Interaction where
  id : InteractionId
  characterId : CharacterId
  rollType : RollType
  result : Option Int
deriving DecidableEq, Repr

/-- `enum EncounterState` of `encounter/mod.rs`. -/
inductive EncounterState
  | initiative
  | turn (round : Int) (characterId : CharacterId)
  | finished
deriving DecidableEq, Repr

/-- `enum Violation` of `violations.rs`; `f32` payloads modelled as `Rat`. -/
inductive Violation
  | characterMovementExceeded (characterId : CharacterId)
      (maximumMovement currentMovement requestMovement : Rat)
  | attackNotInRange (requestCharacterId targetCharacterId : CharacterId)
      (attackRange currentRange : Rat)
  | castNotInRange (requestCharacterId : CharacterId) (targetPosition : Position)
      (spellRange currentRange : Rat)
deriving DecidableEq, Repr

/-- `enum AttackMethod` of `operation/attack.rs`; a weapon is represented by its
computed normal range, the only thing the core reads from it. -/
inductive AttackMethod
  | unarmed
  | weapon (normalRange : Rat)
  | improvisedWeapon (normalRange : Rat)
deriving DecidableEq, Repr

/-- `struct Attack` of `operation/attack.rs`. -/
structure Attack where
  method : AttackMethod
  targets : List CharacterId
deriving DecidableEq, Repr

/-- `enum SpellTarget` of `operation/mod.rs`. -/
inductive SpellTarget
  | creature (characterId : CharacterId)
  | position (position : Position)
  | none
deriving DecidableEq, Repr

/-- `enum SpellTargetType` of `operation/spell.rs`. -/
inductive SpellTargetType
  | creature
  | position
  | none
deriving DecidableEq, Repr

/-- `struct Cast` of `operation/spell.rs`. -/
structure Cast where
  spell : String
  target : SpellTarget
deriving DecidableEq, Repr

/-- `enum Action` of `operation/mod.rs`. -/
inductive Action
  | attack (a : Attack)
  | castSpell (c : Cast)
  | dash
  | disengage
  | dodge
  | help
  | hide
  | ready
  | search
  | useObject
deriving DecidableEq, Repr

/-- `struct Move` of `operation/mod.rs`. -/
structure Move where
  toPosition : Position
  feet : Rat
deriving DecidableEq, Repr

/-- `enum OperationType` of `operation/mod.rs`. -/
inductive OperationType
  | move (m : Move)
  | action (a : Action)
  | bonus (name : String)
  | roll (roll : RollType) (result : Int)
deriving DecidableEq, Repr

/-- `OperationType::as_roll`. -/
def OperationType.asRoll : OperationType → Option (RollType × Int)
  | .roll r res => some (r, res)
  | _ => Option.none

/-- `OperationType::as_move`. -/
def OperationType.asMove : OperationType → Option Move
  | .move m => some m
  | _ => Option.none

/-- `enum Legality` of `operation/mod.rs`. -/
inductive Legality
  | legal
  | illegalPending (violations : List Violation)
  | illegalApproved (violations : List Violation)
deriving DecidableEq, Repr

/-- `struct Operation` of `operation/mod.rs`. -/
structure Operation where
  id : OperationId
  campaignId : CampaignId
  encounterId : Option EncounterId
  encounterState : Option EncounterState
  characterId : CharacterId
  createdAt : Timestamp
  modifiedAt : Timestamp
  operationType : OperationType
  interactions : List Interaction
  legality : Legality
deriving DecidableEq, Repr

/-- The fields of `CharacterStats` read by the core. -/
structure CharacterStats where
  initiative : Int
  speed : Int
  armorClass : Int
deriving DecidableEq, Repr

/-- The fields of `struct Character` read or written by the core; the
`owner.campaign_id` used by `fetch_character_by_campaign_and_id` is modelled by
`campaignId`. -/
structure Character where
  id : CharacterId
  campaignId : CampaignId
  modifiedAt : Timestamp
  stats : CharacterStats
  position : Option Position
  currentHitPoints : Int
  maximumHitPoints : Int
deriving DecidableEq, Repr

/-- `struct Encounter` of `encounter/mod.rs`. -/
structure Encounter where
  id : EncounterId
  campaignId : CampaignId
  createdAt : Timestamp
  modifiedAt : Timestamp
  characterIds : List CharacterId
  state : EncounterState
deriving DecidableEq, Repr

/-- `enum Error` of `error.rs`, restricted to the variants reachable from the
modelled core.  `existentialState` also stands in for the Rust panic on
`self.targets[0]` with empty `targets` (an index panic in the source). -/
inductive Error
  | interactionNotFound (operationId : OperationId) (interactionId : InteractionId)
  | concurrentModificationDetected
  | currentEncounterAlreadyExists (campaignId : CampaignId) (encounterId : EncounterId)
  | currentEncounterDoesNotExist (campaignId : CampaignId)
  | characterNotInCampaign (campaignId : CampaignId) (characterId : CharacterId)
  | characterDoesNotExistInCampaign (campaignId : CampaignId) (characterId : CharacterId)
  | characterNotInEncounter (campaignId : CampaignId) (encounterId : EncounterId)
      (characterId : CharacterId)
  | characterAlreadyRolledInitiative (campaignId : CampaignId) (encounterId : EncounterId)
      (characterId : CharacterId)
  | charactersHaveNotRolledInitiative (campaignId : CampaignId) (encounterId : EncounterId)
      (characterIds : List CharacterId)
  | noCharactersInEncounter (campaignId : CampaignId) (encounterId : EncounterId)
  | notThisPlayersTurn (campaignId : CampaignId) (encounterId : EncounterId)
      (requestCharacterId : CharacterId) (currentCharacterId : CharacterId)
  | characterDoesNotHavePosition (characterId : CharacterId)
  | wrongCharacterForInteraction (operationId : OperationId) (interactionId : InteractionId)
      (expectedCharacterId : CharacterId) (requestCharacterId : CharacterId)
  | spellDoesNotExist (name : String)
  | castUsesWrongTargetType (expectedType : SpellTargetType) (providedType : SpellTarget)
  | operationViolatesRules (violations : List Violation)
  | operationIsNotPending (operationId : OperationId) (legality : Legality)
  | existentialState (message : String)
deriving DecidableEq, Repr

/-- The document store: one collection per record type, each kept newest-first
(every scan in the source sorts by `created_at` descending). -/
structure Store where
  encounters : List Encounter
  operations : List Operation
  characters : List Character
deriving DecidableEq, Repr

def emptyStore : Store := ⟨[], [], []⟩

/-! ### Document-store operations (`encounter/db.rs`, `operation/db.rs`, `character/db.rs`) -/

/-- `EncounterStore::fetch_current_encounter_by_campaign`: `find_one` on the
campaign sorted newest-first, then `.filter(|e| e.state != Finished)`. -/
def fetchCurrentEncounterByCampaign (s : Store) (campaignId : CampaignId) : Option Encounter :=
  (s.encounters.find? (fun e => decide (e.campaignId = campaignId))).filter
    (fun e => decide (e.state ≠ EncounterState.finished))

/-- `EncounterStore::insert_encounter` (newest-first cons). -/
def insertEncounter (s : Store) (encounter : Encounter) : Store :=
  { s with encounters := encounter :: s.encounters }

/-- `OperationStore::insert_operation` (newest-first cons). -/
def insertOperation (s : Store) (operation : Operation) : Store :=
  { s with operations := operation :: s.operations }

/-- `OperationStore::fetch_operations_by_encounter`. -/
def fetchOperationsByEncounter (s : Store) (encounterId : EncounterId) : List Operation :=
  s.operations.filter (fun op => decide (op.encounterId = some encounterId))

/-- `OperationStore::fetch_operations_by_turn`: filters on the encounter id and
on the operation's recorded `encounter_state` snapshot (`TURN`, round,
character). -/
def fetchOperationsByTurn (s : Store) (encounterId : EncounterId) (round : Int)
    (characterId : CharacterId) : List Operation :=
  s.operations.filter (fun op => decide (op.encounterId = some encounterId ∧
    op.encounterState = some (EncounterState.turn round characterId)))

/-- `CharacterStore::fetch_characters_by_campaign`. -/
def fetchCharactersByCampaign (s : Store) (campaignId : CampaignId) : List Character :=
  s.characters.filter (fun c => decide (c.campaignId = campaignId))

/-- `CharacterStore::fetch_character_by_campaign_and_id`
(`find_one { _id, owner.campaign_id }`). -/
def fetchCharacterByCampaignAndId (s : Store) (campaignId : CampaignId)
    (characterId : CharacterId) : Option Character :=
  s.characters.find? (fun c => decide (c.campaignId = campaignId ∧ c.id = characterId))

/-- `CharacterStore::update_character_position`: compare-and-swap on
`(_id, modified_at)`; zero matches is `ConcurrentModificationDetected`. -/
def updateCharacterPosition (s : Store) (character : Character) (position : Option Position)
    (now : Timestamp) : Store × Except Error Character :=
  if s.characters.any (fun c => decide (c.id = character.id ∧ c.modifiedAt = character.modifiedAt))
  then
    ({ s with characters := s.characters.map (fun c =>
        if c.id = character.id ∧ c.modifiedAt = character.modifiedAt then
          { c with modifiedAt := now, position := position } else c) },
     .ok { character with modifiedAt := now, position := position })
  else (s, .error .concurrentModificationDetected)

/-- `CharacterStore::update_character_hit_points`: compare-and-swap on
`(_id, modified_at)`. -/
def updateCharacterHitPoints (s : Store) (character : Character) (hitPoints : Int)
    (now : Timestamp) : Store × Except Error Character :=
  if s.characters.any (fun c => decide (c.id = character.id ∧ c.modifiedAt = character.modifiedAt))
  then
    ({ s with characters := s.characters.map (fun c =>
        if c.id = character.id ∧ c.modifiedAt = character.modifiedAt then
          { c with modifiedAt := now, currentHitPoints := hitPoints } else c) },
     .ok { character with modifiedAt := now, currentHitPoints := hitPoints })
  else (s, .error .concurrentModificationDetected)

/-- `EncounterStore::update_encounter_state`: compare-and-swap on
`(_id, modified_at)`. -/
def updateEncounterState (s : Store) (encounter : Encounter) (state : EncounterState)
    (now : Timestamp) : Store × Except Error Encounter :=
  if s.encounters.any (fun e => decide (e.id = encounter.id ∧ e.modifiedAt = encounter.modifiedAt))
  then
    ({ s with encounters := s.encounters.map (fun e =>
        if e.id = encounter.id ∧ e.modifiedAt = encounter.modifiedAt then
          { e with modifiedAt := now, state := state } else e) },
     .ok { encounter with modifiedAt := now, state := state })
  else (s, .error .concurrentModificationDetected)

/-- `EncounterStore::update_encounter_state_and_characters`: one compare-and-swap
setting `state` and `character_ids` together. -/
def updateEncounterStateAndCharacters (s : Store) (encounter : Encounter)
    (state : EncounterState) (characterIds : List CharacterId) (now : Timestamp) :
    Store × Except Error Encounter :=
  if s.encounters.any (fun e => decide (e.id = encounter.id ∧ e.modifiedAt = encounter.modifiedAt))
  then
    ({ s with encounters := s.encounters.map (fun e =>
        if e.id = encounter.id ∧ e.modifiedAt = encounter.modifiedAt then
          { e with modifiedAt := now, state := state, characterIds := characterIds } else e) },
     .ok { encounter with modifiedAt := now, state := state, characterIds := characterIds })
  else (s, .error .concurrentModificationDetected)

/-- `interactions.{i}.result := r` (`$set` on the indexed path). -/
def setInteractionResult : List Interaction → Nat → Int → List Interaction
  | [], _, _ => []
  | it :: rest, 0, r => { it with result := some r } :: rest
  | it :: rest, n + 1, r => it :: setInteractionResult rest n r

/-- `OperationStore::update_operation_interaction_result`: compare-and-swap on
`(_id, modified_at)` setting `interactions.{index}.result` unconditionally — the
store never checks whether the result was already set. -/
def updateOperationInteractionResult (s : Store) (operation : Operation) (index : Nat)
    (result : Int) (now : Timestamp) : Store × Except Error Operation :=
  if s.operations.any (fun op => decide (op.id = operation.id ∧ op.modifiedAt = operation.modifiedAt))
  then
    ({ s with operations := s.operations.map (fun op =>
        if op.id = operation.id ∧ op.modifiedAt = operation.modifiedAt then
          { op with modifiedAt := now,
                    interactions := setInteractionResult op.interactions index result } else op) },
     .ok { operation with modifiedAt := now,
                          interactions := setInteractionResult operation.interactions index result })
  else (s, .error .concurrentModificationDetected)

/-- `OperationStore::update_operation_push_interactions`: compare-and-swap on
`(_id, modified_at)` appending interactions. -/
def updateOperationPushInteractions (s : Store) (operation : Operation)
    (interactions : List Interaction) (now : Timestamp) : Store × Except Error Operation :=
  if s.operations.any (fun op => decide (op.id = operation.id ∧ op.modifiedAt = operation.modifiedAt))
  then
    ({ s with operations := s.operations.map (fun op =>
        if op.id = operation.id ∧ op.modifiedAt = operation.modifiedAt then
          { op with modifiedAt := now,
                    interactions := op.interactions ++ interactions } else op) },
     .ok { operation with modifiedAt := now,
                          interactions := operation.interactions ++ interactions })
  else (s, .error .concurrentModificationDetected)

/-! ### Encounter state machine (`encounter/manager.rs`) -/

/-- `create_encounter_in_campaign`: fails when a current (non-Finished)
encounter exists or when a requested character is not in the campaign; otherwise
inserts a fresh `Initiative` encounter whose `character_ids` is the roster. -/
def createEncounterInCampaign (s : Store) (campaignId : CampaignId)
    (characterIds : List CharacterId) (freshId : EncounterId) (now : Timestamp) :
    Store × Except Error Encounter :=
  match fetchCurrentEncounterByCampaign s campaignId with
  | some currentEncounter =>
    (s, .error (.currentEncounterAlreadyExists campaignId currentEncounter.id))
  | Option.none =>
    match characterIds.find? (fun characterId =>
        ! (fetchCharactersByCampaign s campaignId).any (fun c => decide (c.id = characterId))) with
    | some characterId => (s, .error (.characterNotInCampaign campaignId characterId))
    | Option.none =>
      (insertEncounter s
        { id := freshId, campaignId := campaignId, createdAt := now, modifiedAt := now,
          characterIds := characterIds, state := .initiative },
       .ok { id := freshId, campaignId := campaignId, createdAt := now, modifiedAt := now,
             characterIds := characterIds, state := .initiative })

/-- The `(character_id, result)` pairs of the recorded `Roll{Initiative}`
operations of an encounter, newest-first (the local `initiative_rolls` of
`begin_current_encounter_in_campaign`). -/
def initiativeRollsOf (s : Store) (encounterId : EncounterId) : List (CharacterId × Int) :=
  (fetchOperationsByEncounter s encounterId).filterMap (fun operation =>
    match operation.operationType.asRoll with
    | some (r, res) => if r = RollType.initiative then some (operation.characterId, res)
                       else Option.none
    | Option.none => Option.none)

/-- Whether some recorded initiative roll of the encounter belongs to the
character. -/
def hasInitiativeRoll (s : Store) (encounterId : EncounterId) (characterId : CharacterId) : Bool :=
  (initiativeRollsOf s encounterId).any (fun cr => decide (cr.1 = characterId))

/-- The `uninitiated_character_ids` of `begin_current_encounter_in_campaign`:
roster characters with no recorded initiative roll. -/
def uninitiatedCharacterIdsOf (s : Store) (encounter : Encounter) : List CharacterId :=
  encounter.characterIds.filter (fun characterId =>
    ! hasInitiativeRoll s encounter.id characterId)

/-- The `turn_order` of `begin_current_encounter_in_campaign`: initiative rolls
sorted by result with a stable sort, reversed (descending), projected to the
character ids. -/
def turnOrderOf (s : Store) (encounterId : EncounterId) : List CharacterId :=
  (((initiativeRollsOf s encounterId).insertionSort (fun a b => a.2 ≤ b.2)).reverse).map
    (fun cr => cr.1)

/-- `begin_current_encounter_in_campaign`: requires a current encounter and an
initiative roll for every roster character; sorts the rolls by result with a
stable sort, reverses (descending), and writes `Turn{round: 0, first}` together
with the turn order through one compare-and-swap. -/
def beginCurrentEncounterInCampaign (s : Store) (campaignId : CampaignId) (now : Timestamp) :
    Store × Except Error (List CharacterId) :=
  match fetchCurrentEncounterByCampaign s campaignId with
  | Option.none => (s, .error (.currentEncounterDoesNotExist campaignId))
  | some encounter =>
    if uninitiatedCharacterIdsOf s encounter ≠ [] then
      (s, .error (.charactersHaveNotRolledInitiative campaignId encounter.id
        (uninitiatedCharacterIdsOf s encounter)))
    else
      match (turnOrderOf s encounter.id).head? with
      | Option.none => (s, .error (.noCharactersInEncounter campaignId encounter.id))
      | some firstCharacter =>
        match updateEncounterStateAndCharacters s encounter
            (.turn 0 firstCharacter) (turnOrderOf s encounter.id) now with
        | (s2, .error e) => (s2, .error e)
        | (s2, .ok encounter2) => (s2, .ok encounter2.characterIds)

/-- `finish_current_encounter_in_campaign`: requires a current encounter and
sets its state to `Finished` through compare-and-swap. -/
def finishCurrentEncounterInCampaign (s : Store) (campaignId : CampaignId) (now : Timestamp) :
    Store × Except Error Unit :=
  match fetchCurrentEncounterByCampaign s campaignId with
  | Option.none => (s, .error (.currentEncounterDoesNotExist campaignId))
  | some encounter =>
    match updateEncounterState s encounter .finished now with
    | (s2, .error e) => (s2, .error e)
    | (s2, .ok _) => (s2, .ok ())

/-! ### Interaction resolver (`operation/attack.rs`, `operation/spell.rs`) -/

/-- `Attack::handle_interaction_result`.  On `Hit`: fetch `targets[0]` and seed
one `Damage` interaction when `armor_class <= result`.  On `Damage`: floor the
target's hit points at 0 after subtracting the result, through compare-and-swap.
The Rust source indexes `self.targets[0]`, which panics on an empty target
list; the model returns `existentialState` there instead. -/
def Attack.handleInteractionResult (s : Store) (attack : Attack) (campaignId : CampaignId)
    (interaction : Interaction) (result : Int) (freshId : InteractionId) (now : Timestamp) :
    Store × Except Error (List Interaction) :=
  match interaction.rollType with
  | .hit =>
    match attack.targets.head? with
    | Option.none => (s, .error (.existentialState "attack has no targets"))
    | some targetCharacterId =>
      match fetchCharacterByCampaignAndId s campaignId targetCharacterId with
      | Option.none => (s, .error (.characterDoesNotExistInCampaign campaignId targetCharacterId))
      | some targetCharacter =>
        if targetCharacter.stats.armorClass ≤ result then
          (s, .ok [{ id := freshId, characterId := interaction.characterId,
                     rollType := .damage, result := Option.none }])
        else (s, .ok [])
  | .damage =>
    match attack.targets.head? with
    | Option.none => (s, .error (.existentialState "attack has no targets"))
    | some targetCharacterId =>
      match fetchCharacterByCampaignAndId s campaignId targetCharacterId with
      | Option.none => (s, .error (.characterDoesNotExistInCampaign campaignId targetCharacterId))
      | some targetCharacter =>
        let newHitPoints := max (targetCharacter.currentHitPoints - result) 0
        match updateCharacterHitPoints s targetCharacter newHitPoints now with
        | (s2, .error e) => (s2, .error e)
        | (s2, .ok _) => (s2, .ok [])
  | _ => (s, .ok [])

/-- The member-fetch loop of `Cast::handle_interaction_result` (Damage arm):
fetch every encounter member in roster order, failing on the first absent one. -/
def fetchCharactersInEncounter (s : Store) (campaignId : CampaignId) :
    List CharacterId → Except Error (List Character)
  | [] => .ok []
  | characterId :: rest =>
    match fetchCharacterByCampaignAndId s campaignId characterId with
    | Option.none => .error (.characterDoesNotExistInCampaign campaignId characterId)
    | some character =>
      match fetchCharactersInEncounter s campaignId rest with
      | .error e => .error e
      | .ok characters => .ok (character :: characters)

/-- `Cast::handle_interaction_result` (Fireball).  On `Damage`: seed one
`Dexterity Save` interaction per encounter member whose position is within the
20-ft blast radius of the target point (members without a position are filtered
out).  On `Dexterity Save`: halve the recorded damage pool (truncating `i32`
division) when the result meets the difficulty class 8, subtract floored at 0
through compare-and-swap. -/
def Cast.handleInteractionResult (s : Store) (cast : Cast) (campaignId : CampaignId)
    (encounter : Encounter) (operation : Operation) (interaction : Interaction) (result : Int)
    (dist : Position → Position → Rat) (freshIds : Nat → InteractionId) (now : Timestamp) :
    Store × Except Error (List Interaction) :=
  if cast.spell = "Fireball" then
    match interaction.rollType with
    | .damage =>
      match cast.target with
      | .position targetPosition =>
        match fetchCharactersInEncounter s campaignId encounter.characterIds with
        | .error e => (s, .error e)
        | .ok charactersInEncounter =>
          let charactersInRange := charactersInEncounter.filter (fun character =>
            match character.position with
            | some characterPosition => decide (dist characterPosition targetPosition ≤ 20)
            | Option.none => false)
          (s, .ok (charactersInRange.enum.map (fun ic =>
            { id := freshIds ic.1, characterId := ic.2.id,
              rollType := .dexteritySave, result := Option.none })))
      | unexpectedTarget => (s, .error (.castUsesWrongTargetType .position unexpectedTarget))
    | .dexteritySave =>
      match fetchCharacterByCampaignAndId s campaignId interaction.characterId with
      | Option.none =>
        (s, .error (.characterDoesNotExistInCampaign campaignId interaction.characterId))
      | some targetCharacter =>
        match operation.interactions.find? (fun i => decide (i.rollType = RollType.damage)) with
        | Option.none =>
          (s, .error (.existentialState "Expected Fireball to have damage roll interaction"))
        | some damageInteraction =>
          match damageInteraction.result with
          | Option.none =>
            (s, .error (.existentialState "Expected Fireball damage roll to have result"))
          | some maxDamage =>
            let difficultyClass : Int := 8
            let damage := if difficultyClass ≤ result then Int.tdiv maxDamage 2 else maxDamage
            let newHitPoints := max (targetCharacter.currentHitPoints - damage) 0
            match updateCharacterHitPoints s targetCharacter newHitPoints now with
            | (s2, .error e) => (s2, .error e)
            | (s2, .ok _) => (s2, .ok [])
    | _ => (s, .ok [])
  else (s, .ok [])

/-! ### Operation ledger (`operation/manager.rs`) -/

/-- `submit_interaction_result_to_operation`: locate the interaction, check the
submitting character, dispatch to the resolver, then record the result — and
append any new interactions — through compare-and-swap against the operation's
`modified_at`. -/
def submitInteractionResultToOperation (s : Store) (campaignId : CampaignId)
    (encounter : Encounter) (operation : Operation) (interactionId : InteractionId)
    (characterId : CharacterId) (result : Int) (dist : Position → Position → Rat)
    (freshIds : Nat → InteractionId) (now : Timestamp) : Store × Except Error Operation :=
  match operation.interactions.enum.find? (fun ii => decide (ii.2.id = interactionId)) with
  | Option.none => (s, .error (.interactionNotFound operation.id interactionId))
  | some (index, interaction) =>
    if interaction.characterId ≠ characterId then
      (s, .error (.wrongCharacterForInteraction operation.id interaction.id
        interaction.characterId characterId))
    else
      let dispatched : Store × Except Error (List Interaction) :=
        match operation.operationType with
        | .action (.attack attack) =>
          Attack.handleInteractionResult s attack campaignId interaction result (freshIds 0) now
        | .action (.castSpell cast) =>
          Cast.handleInteractionResult s cast campaignId encounter operation interaction result
            dist freshIds now
        | _ => (s, .ok [])
      match dispatched with
      | (s2, .error e) => (s2, .error e)
      | (s2, .ok newInteractions) =>
        match updateOperationInteractionResult s2 operation index result now with
        | (s3, .error e) => (s3, .error e)
        | (s3, .ok operation2) =>
          if newInteractions ≠ [] then
            updateOperationPushInteractions s3 operation2 newInteractions now
          else (s3, .ok operation2)

/-- The `already_moved_feet` sum of `move_in_current_encounter_in_campaign`:
total feet of the character's prior Move operations recorded in the same round
and turn. -/
def alreadyMovedFeet (s : Store) (encounterId : EncounterId) (round : Int)
    (turnCharacterId : CharacterId) (characterId : CharacterId) : Rat :=
  ((((fetchOperationsByTurn s encounterId round turnCharacterId).filter
      (fun op => decide (op.characterId = characterId))).filterMap
      (fun op => op.operationType.asMove)).map (fun m => m.feet)).sum

/-- The Move `Operation` record built by `move_in_current_encounter_in_campaign`:
a snapshot of the encounter state, the requested position and feet, and a
legality of `Legal` or `IllegalPending` according to the violation set. -/
def moveOperation (campaignId : CampaignId) (encounter : Encounter)
    (characterId : CharacterId) (position : Position) (feet : Rat)
    (freshOpId : OperationId) (now : Timestamp) (violations : List Violation) : Operation :=
  { id := freshOpId, campaignId := campaignId, encounterId := some encounter.id,
    encounterState := some encounter.state, characterId := characterId,
    createdAt := now, modifiedAt := now,
    operationType := .move { toPosition := position, feet := feet },
    interactions := [],
    legality := if violations = [] then .legal else .illegalPending violations }

/-- `move_in_current_encounter_in_campaign`: precondition checks, the movement
violation computation (during a `Turn`), the `ignore_violations` gate, then —
on acceptance — the Operation insert followed by the unconditional position
update of the Character record. -/
def moveInCurrentEncounterInCampaign (s : Store) (campaignId : CampaignId)
    (encounter : Encounter) (characterId : CharacterId) (position : Position)
    (ignoreViolations : Bool) (dist : Position → Position → Rat)
    (freshOpId : OperationId) (now : Timestamp) : Store × Except Error Operation :=
  match fetchCharacterByCampaignAndId s campaignId characterId with
  | Option.none => (s, .error (.characterNotInCampaign campaignId characterId))
  | some currentCharacter =>
    if characterId ∉ encounter.characterIds then
      (s, .error (.characterNotInEncounter campaignId encounter.id characterId))
    else
      match currentCharacter.position with
      | Option.none => (s, .error (.characterDoesNotHavePosition characterId))
      | some currentPosition =>
        let desiredPosition := position
        let feet := dist currentPosition desiredPosition
        let checked : Except Error (List Violation) :=
          match encounter.state with
          | .turn round turnCharacterId =>
            if currentCharacter.id ≠ turnCharacterId then
              .error (.notThisPlayersTurn campaignId encounter.id currentCharacter.id
                turnCharacterId)
            else
              let already := alreadyMovedFeet s encounter.id round turnCharacterId
                currentCharacter.id
              let maximumMovement : Rat := (currentCharacter.stats.speed : Rat)
              if maximumMovement < already + feet then
                .ok [.characterMovementExceeded turnCharacterId maximumMovement already feet]
              else .ok []
          | _ => .ok []
        match checked with
        | .error e => (s, .error e)
        | .ok violations =>
          if ¬ ignoreViolations ∧ violations ≠ [] then
            (s, .error (.operationViolatesRules violations))
          else
            match updateCharacterPosition
                (insertOperation s (moveOperation campaignId encounter characterId
                  desiredPosition feet freshOpId now violations))
                currentCharacter (some position) now with
            | (s3, .error e) => (s3, .error e)
            | (s3, .ok _) =>
              (s3, .ok (moveOperation campaignId encounter characterId desiredPosition feet
                freshOpId now violations))

/-! ### Reachable store states and the active-encounter invariant -/

instance {ε α : Type} [DecidableEq ε] [DecidableEq α] : DecidableEq (Except ε α) := fun x y =>
  match x, y with
  | .ok a, .ok b =>
    if h : a = b then .isTrue (congrArg Except.ok h)
    else .isFalse (fun hc => h (Except.ok.inj hc))
  | .error a, .error b =>
    if h : a = b then .isTrue (congrArg Except.error h)
    else .isFalse (fun hc => h (Except.error.inj hc))
  | .ok _, .error _ => .isFalse (fun hc => Except.noConfusion hc)
  | .error _, .ok _ => .isFalse (fun hc => Except.noConfusion hc)

/-- One evolution step of the store through the encounter lifecycle: a
successful create/begin/finish call, or the insertion of an operation or
character record (the only writes the other endpoints make to those
collections).  Encounter ids are generated fresh (`TypedId::new`, a `_id` with
a unique index in MongoDB). -/
inductive Step : Store → Store → Prop
  | createEncounter {s s' : Store} {campaignId : CampaignId} {characterIds : List CharacterId}
      {freshId : EncounterId} {now : Timestamp} {e : Encounter}
      (hfresh : ∀ enc ∈ s.encounters, enc.id ≠ freshId)
      (h : createEncounterInCampaign s campaignId characterIds freshId now = (s', .ok e)) :
      Step s s'
  | beginEncounter {s s' : Store} {campaignId : CampaignId} {now : Timestamp}
      {r : List CharacterId}
      (h : beginCurrentEncounterInCampaign s campaignId now = (s', .ok r)) : Step s s'
  | finishEncounter {s s' : Store} {campaignId : CampaignId} {now : Timestamp}
      (h : finishCurrentEncounterInCampaign s campaignId now = (s', .ok ())) : Step s s'
  | insertOperationStep (s : Store) (op : Operation) :
      Step s { s with operations := op :: s.operations }
  | insertCharacterStep (s : Store) (c : Character) :
      Step s { s with characters := c :: s.characters }

/-- Store states reachable from the empty store. -/
inductive Reachable : Store → Prop
  | init : Reachable emptyStore
  | step {s s' : Store} : Reachable s → Step s s' → Reachable s'

/-- Every non-Finished encounter is the one the current-encounter lookup of its
campaign returns. -/
def ActiveIsCurrent (s : Store) : Prop :=
  ∀ e ∈ s.encounters, e.state ≠ EncounterState.finished →
    fetchCurrentEncounterByCampaign s e.campaignId = some e

/-- Encounter ids are pairwise distinct (MongoDB `_id` uniqueness). -/
def EncounterIdsNodup (s : Store) : Prop :=
  (s.encounters.map Encounter.id).Nodup

def StoreInv (s : Store) : Prop := EncounterIdsNodup s ∧ ActiveIsCurrent s

theorem fetchCurrent_eq_some {s : Store} {campaignId : CampaignId} {e : Encounter} :
    fetchCurrentEncounterByCampaign s campaignId = some e ↔
      s.encounters.find? (fun x => decide (x.campaignId = campaignId)) = some e ∧
        e.state ≠ EncounterState.finished := by
  unfold fetchCurrentEncounterByCampaign
  rw [Option.filter_eq_some]
  simp [Option.mem_def]

theorem activeIsCurrent_insert (s : Store) (enc : Encounter)
    (hnone : fetchCurrentEncounterByCampaign s enc.campaignId = Option.none)
    (haic : ActiveIsCurrent s) : ActiveIsCurrent (insertEncounter s enc) := by
  intro e' hmem' hactive'
  rw [fetchCurrent_eq_some]
  refine ⟨?_, hactive'⟩
  show (enc :: s.encounters).find? _ = some e'
  rcases List.mem_cons.mp hmem' with rfl | hmem
  · exact List.find?_cons_of_pos _ (by simp)
  · by_cases hc : e'.campaignId = enc.campaignId
    · exfalso
      have h := haic e' hmem hactive'
      rw [hc, hnone] at h
      exact Option.noConfusion h
    · have h := haic e' hmem hactive'
      rw [fetchCurrent_eq_some] at h
      rw [List.find?_cons_of_neg _ (by simp; exact fun hx => hc hx.symm)]
      exact h.1

theorem activeIsCurrent_map (s : Store) (f : Encounter → Encounter)
    (hcamp : ∀ x, (f x).campaignId = x.campaignId)
    (haic : ActiveIsCurrent s) (e : Encounter)
    (he : fetchCurrentEncounterByCampaign s e.campaignId = some e)
    (hf : ∀ x ∈ s.encounters, f x ≠ x → x = e) :
    ActiveIsCurrent { s with encounters := s.encounters.map f } := by
  intro e' hmem' hactive'
  obtain ⟨x, hx, rfl⟩ := List.mem_map.mp hmem'
  rw [fetchCurrent_eq_some]
  refine ⟨?_, hactive'⟩
  show (s.encounters.map f).find? _ = some (f x)
  rw [List.find?_map]
  have hpf : ((fun y => decide (y.campaignId = (f x).campaignId)) ∘ f) =
      (fun y => decide (y.campaignId = (f x).campaignId)) := by
    funext a
    simp only [Function.comp_apply, hcamp a]
  rw [hpf]
  by_cases hfx : f x = x
  · have hx_active : x.state ≠ EncounterState.finished := by
      rw [← hfx]; exact hactive'
    have h := haic x hx hx_active
    rw [fetchCurrent_eq_some] at h
    rw [hfx, h.1]
    simp [hfx]
  · have hxe := hf x hx hfx
    subst hxe
    rw [hcamp x]
    rw [fetchCurrent_eq_some] at he
    rw [he.1]
    simp

theorem encounterIdsNodup_map (s : Store) (f : Encounter → Encounter)
    (hid : ∀ x, (f x).id = x.id) (hnd : EncounterIdsNodup s) :
    EncounterIdsNodup { s with encounters := s.encounters.map f } := by
  unfold EncounterIdsNodup at *
  show ((s.encounters.map f).map Encounter.id).Nodup
  rw [List.map_map, show (Encounter.id ∘ f) = Encounter.id from funext hid]
  exact hnd

theorem createEncounterInCampaign_ok {s s' : Store} {campaignId : CampaignId}
    {characterIds : List CharacterId} {freshId : EncounterId} {now : Timestamp} {e : Encounter}
    (h : createEncounterInCampaign s campaignId characterIds freshId now = (s', .ok e)) :
    fetchCurrentEncounterByCampaign s campaignId = Option.none ∧
      e = { id := freshId, campaignId := campaignId, createdAt := now, modifiedAt := now,
            characterIds := characterIds, state := .initiative } ∧
      s' = insertEncounter s e := by
  unfold createEncounterInCampaign at h
  split at h
  · exact Except.noConfusion (congrArg Prod.snd h)
  · next hfc =>
    split at h
    · exact Except.noConfusion (congrArg Prod.snd h)
    · rw [Prod.mk.injEq] at h
      obtain ⟨hs, he0⟩ := h
      have he := Except.ok.inj he0
      exact ⟨hfc, he.symm, by rw [← hs, he]⟩

theorem updateEncounterStateAndCharacters_ok {s s2 : Store} {e e2 : Encounter}
    {st : EncounterState} {ids : List CharacterId} {now : Timestamp}
    (h : updateEncounterStateAndCharacters s e st ids now = (s2, .ok e2)) :
    s2 = { s with encounters := s.encounters.map (fun x =>
      if x.id = e.id ∧ x.modifiedAt = e.modifiedAt then
        { x with modifiedAt := now, state := st, characterIds := ids } else x) } := by
  unfold updateEncounterStateAndCharacters at h
  split at h
  · exact (congrArg Prod.fst h).symm
  · exact Except.noConfusion (congrArg Prod.snd h)

theorem updateEncounterState_ok {s s2 : Store} {e e2 : Encounter}
    {st : EncounterState} {now : Timestamp}
    (h : updateEncounterState s e st now = (s2, .ok e2)) :
    s2 = { s with encounters := s.encounters.map (fun x =>
      if x.id = e.id ∧ x.modifiedAt = e.modifiedAt then
        { x with modifiedAt := now, state := st } else x) } := by
  unfold updateEncounterState at h
  split at h
  · exact (congrArg Prod.fst h).symm
  · exact Except.noConfusion (congrArg Prod.snd h)

theorem beginCurrentEncounterInCampaign_ok {s s' : Store} {campaignId : CampaignId}
    {now : Timestamp} {r : List CharacterId}
    (h : beginCurrentEncounterInCampaign s campaignId now = (s', .ok r)) :
    ∃ e st ids, fetchCurrentEncounterByCampaign s campaignId = some e ∧
      s' = { s with encounters := s.encounters.map (fun x =>
        if x.id = e.id ∧ x.modifiedAt = e.modifiedAt then
          { x with modifiedAt := now, state := st, characterIds := ids } else x) } := by
  unfold beginCurrentEncounterInCampaign at h
  split at h
  · exact Except.noConfusion (congrArg Prod.snd h)
  · next e hfc =>
    split at h
    · exact Except.noConfusion (congrArg Prod.snd h)
    · split at h
      · exact Except.noConfusion (congrArg Prod.snd h)
      · next first hhead =>
        split at h
        · exact Except.noConfusion (congrArg Prod.snd h)
        · next s2 e2 hupd =>
          have hs2 : s2 = s' := congrArg Prod.fst h
          exact ⟨e, _, _, hfc, hs2 ▸ updateEncounterStateAndCharacters_ok hupd⟩

theorem finishCurrentEncounterInCampaign_ok {s s' : Store} {campaignId : CampaignId}
    {now : Timestamp}
    (h : finishCurrentEncounterInCampaign s campaignId now = (s', .ok ())) :
    ∃ e, fetchCurrentEncounterByCampaign s campaignId = some e ∧
      s' = { s with encounters := s.encounters.map (fun x =>
        if x.id = e.id ∧ x.modifiedAt = e.modifiedAt then
          { x with modifiedAt := now, state := .finished } else x) } := by
  unfold finishCurrentEncounterInCampaign at h
  split at h
  · exact Except.noConfusion (congrArg Prod.snd h)
  · next e hfc =>
    split at h
    · exact Except.noConfusion (congrArg Prod.snd h)
    · next s2 e2 hupd =>
      have hs2 : s2 = s' := congrArg Prod.fst h
      exact ⟨e, hfc, hs2 ▸ updateEncounterState_ok hupd⟩

theorem storeInv_step {s s' : Store} (hstep : Step s s') (hinv : StoreInv s) : StoreInv s' := by
  obtain ⟨hnd, haic⟩ := hinv
  cases hstep with
  | createEncounter hfresh h =>
    obtain ⟨hnone, he, hs'⟩ := createEncounterInCampaign_ok h
    subst hs'
    constructor
    · show ((_ :: s.encounters).map Encounter.id).Nodup
      rw [List.map_cons, List.nodup_cons]
      constructor
      · intro hmem
        obtain ⟨enc, hm, hide⟩ := List.mem_map.mp hmem
        rw [he] at hide
        exact hfresh enc hm hide
      · exact hnd
    · exact activeIsCurrent_insert s _ (by rw [he]; exact hnone) haic
  | beginEncounter h =>
    obtain ⟨e, st, ids, hfc, hs'⟩ := beginCurrentEncounterInCampaign_ok h
    subst hs'
    have hpair := fetchCurrent_eq_some.mp hfc
    have hmem_e : e ∈ s.encounters := List.mem_of_find?_eq_some hpair.1
    have hcampe := List.find?_some hpair.1
    simp only [decide_eq_true_eq] at hcampe
    rw [← hcampe] at hfc
    refine ⟨encounterIdsNodup_map s _ ?_ hnd, activeIsCurrent_map s _ ?_ haic e hfc ?_⟩
    · intro x; dsimp only; split <;> rfl
    · intro x; dsimp only; split <;> rfl
    · intro x hx hne
      by_cases hcond : x.id = e.id ∧ x.modifiedAt = e.modifiedAt
      · exact List.inj_on_of_nodup_map hnd hx hmem_e hcond.1
      · exfalso; apply hne; dsimp only; rw [if_neg hcond]
  | finishEncounter h =>
    obtain ⟨e, hfc, hs'⟩ := finishCurrentEncounterInCampaign_ok h
    subst hs'
    have hpair := fetchCurrent_eq_some.mp hfc
    have hmem_e : e ∈ s.encounters := List.mem_of_find?_eq_some hpair.1
    have hcampe := List.find?_some hpair.1
    simp only [decide_eq_true_eq] at hcampe
    rw [← hcampe] at hfc
    refine ⟨encounterIdsNodup_map s _ ?_ hnd, activeIsCurrent_map s _ ?_ haic e hfc ?_⟩
    · intro x; dsimp only; split <;> rfl
    · intro x; dsimp only; split <;> rfl
    · intro x hx hne
      by_cases hcond : x.id = e.id ∧ x.modifiedAt = e.modifiedAt
      · exact List.inj_on_of_nodup_map hnd hx hmem_e hcond.1
      · exfalso; apply hne; dsimp only; rw [if_neg hcond]
  | insertOperationStep op => exact ⟨hnd, haic⟩
  | insertCharacterStep c => exact ⟨hnd, haic⟩

theorem reachable_storeInv {s : Store} (h : Reachable s) : StoreInv s := by
  induction h with
  | init =>
    refine ⟨List.nodup_nil, ?_⟩
    intro e hmem _
    exact absurd hmem (List.not_mem_nil e)
  | step _ hstep ih => exact storeInv_step hstep ih

/-- C2: in every store state reachable through create/begin/finish (together
with operation and character record inserts, which never touch the encounters
collection), at most one encounter of each campaign has state ≠ Finished, and
while such an encounter exists `create_encounter_in_campaign` fails with
`CurrentEncounterAlreadyExists` naming it. -/
theorem reachable_atMostOneActive_and_createFails {s : Store} (hreach : Reachable s)
    (campaignId : CampaignId) :
    (∀ e1 ∈ s.encounters, ∀ e2 ∈ s.encounters, e1.campaignId = campaignId →
      e2.campaignId = campaignId → e1.state ≠ EncounterState.finished →
      e2.state ≠ EncounterState.finished → e1 = e2) ∧
    (∀ e ∈ s.encounters, e.campaignId = campaignId → e.state ≠ EncounterState.finished →
      ∀ characterIds freshId now,
        createEncounterInCampaign s campaignId characterIds freshId now =
          (s, .error (.currentEncounterAlreadyExists campaignId e.id))) := by
  obtain ⟨hnd, haic⟩ := reachable_storeInv hreach
  constructor
  · intro e1 h1 e2 h2 hc1 hc2 ha1 ha2
    have hf1 := haic e1 h1 ha1
    have hf2 := haic e2 h2 ha2
    rw [hc1] at hf1
    rw [hc2] at hf2
    rw [hf1] at hf2
    exact Option.some.inj hf2
  · intro e hmem hcamp hactive characterIds freshId now
    have hf := haic e hmem hactive
    rw [hcamp] at hf
    unfold createEncounterInCampaign
    rw [hf]

def c2Encounter : Encounter :=
  { id := 1, campaignId := 0, createdAt := 0, modifiedAt := 0, characterIds := [],
    state := .initiative }

def c2Store : Store := { encounters := [c2Encounter], operations := [], characters := [] }

theorem c2Store_reachable : Reachable c2Store :=
  Reachable.step Reachable.init
    (@Step.createEncounter emptyStore c2Store 0 [] 1 0 c2Encounter
      (fun enc h => absurd h (List.not_mem_nil enc)) rfl)

/-- Witness for C2 at a concrete reachable one-encounter store. -/
theorem reachable_atMostOneActive_and_createFails_witness :
    createEncounterInCampaign c2Store 0 [] 2 1 =
      (c2Store, .error (.currentEncounterAlreadyExists 0 1)) :=
  (reachable_atMostOneActive_and_createFails c2Store_reachable 0).2 c2Encounter
    (by decide) rfl (by decide) [] 2 1

/-- Modelled from the spec: the current-encounter lookup as the spec words it —
the most-recently-created encounter of the campaign whose state ≠ Finished
(the store is newest-first, so the first such encounter). -/
def specCurrentEncounter (s : Store) (campaignId : CampaignId) : Option Encounter :=
  s.encounters.find? (fun e =>
    decide (e.campaignId = campaignId ∧ e.state ≠ EncounterState.finished))

def c4OldEncounter : Encounter :=
  { id := 1, campaignId := 0, createdAt := 0, modifiedAt := 0, characterIds := [],
    state := .initiative }

def c4NewEncounter : Encounter :=
  { id := 2, campaignId := 0, createdAt := 1, modifiedAt := 1, characterIds := [],
    state := .finished }

def c4Store : Store :=
  { encounters := [c4NewEncounter, c4OldEncounter], operations := [], characters := [] }

/-- C4 counterexample: on a store whose most-recently-created encounter is
Finished while an older encounter of the same campaign is still active, the
lookup returns none even though the campaign has an encounter with
state ≠ Finished — it filters the newest encounter instead of searching for
the newest non-Finished one. -/
theorem fetchCurrent_none_despite_active :
    fetchCurrentEncounterByCampaign c4Store 0 = Option.none ∧
      c4OldEncounter ∈ c4Store.encounters ∧ c4OldEncounter.campaignId = 0 ∧
      c4OldEncounter.state ≠ EncounterState.finished := by decide

/-- C4 (amended): the lookup returns the most-recently-created encounter of the
campaign only if that one is not Finished, and none otherwise; on every
reachable store this coincides with the spec's lookup (the newest non-Finished
encounter, none exactly when no non-Finished encounter exists). -/
theorem fetchCurrent_eq_spec_on_reachable {s : Store} (hreach : Reachable s)
    (campaignId : CampaignId) :
    fetchCurrentEncounterByCampaign s campaignId = specCurrentEncounter s campaignId := by
  obtain ⟨hnd, haic⟩ := reachable_storeInv hreach
  cases hspec : specCurrentEncounter s campaignId with
  | some e =>
    have hp := List.find?_some hspec
    simp only [decide_eq_true_eq] at hp
    have hmem := List.mem_of_find?_eq_some hspec
    have h := haic e hmem hp.2
    rw [hp.1] at h
    exact h
  | none =>
    unfold specCurrentEncounter at hspec
    rw [List.find?_eq_none] at hspec
    cases hfind : s.encounters.find? (fun x => decide (x.campaignId = campaignId)) with
    | none =>
      unfold fetchCurrentEncounterByCampaign
      rw [hfind]
      rfl
    | some x =>
      have hx := List.find?_some hfind
      simp only [decide_eq_true_eq] at hx
      have hxmem := List.mem_of_find?_eq_some hfind
      have hnx := hspec x hxmem
      simp only [decide_eq_true_eq, not_and, ne_eq, not_not] at hnx
      have hfinished := hnx hx
      unfold fetchCurrentEncounterByCampaign
      rw [hfind]
      simp [Option.filter, hfinished]

/-- Witness for the amended C4 at a concrete reachable store. -/
theorem fetchCurrent_eq_spec_on_reachable_witness :
    fetchCurrentEncounterByCampaign c2Store 0 = specCurrentEncounter c2Store 0 :=
  fetchCurrent_eq_spec_on_reachable c2Store_reachable 0

/-! ### C1: interaction results are not write-once -/

def c1Interaction : Interaction :=
  { id := 1, characterId := 5, rollType := .hit, result := some 5 }

def c1Operation : Operation :=
  { id := 1, campaignId := 0, encounterId := some 1, encounterState := some .initiative,
    characterId := 5, createdAt := 0, modifiedAt := 0,
    operationType := .bonus "inspire", interactions := [c1Interaction], legality := .legal }

def c1Encounter : Encounter :=
  { id := 1, campaignId := 0, createdAt := 0, modifiedAt := 0, characterIds := [5],
    state := .initiative }

def c1Store : Store :=
  { encounters := [c1Encounter], operations := [c1Operation], characters := [] }

/-- The operation as stored after the second submission: result overwritten. -/
def c1OperationAfter : Operation :=
  { c1Operation with
    modifiedAt := 10,
    interactions := [{ id := 1, characterId := 5, rollType := .hit, result := some 7 }] }

/-- C1 counterexample: for an interaction whose result is already set (5), a
second submission with the re-fetched, current operation (matching
`modified_at`) and the matching character succeeds and silently overwrites the
stored result with 7 — nothing fails and the CAS matches. -/
theorem interactionResult_overwritten_on_refetch :
    c1Operation.interactions =
      [{ id := 1, characterId := 5, rollType := .hit, result := some 5 }] ∧
    c1OperationAfter.interactions =
      [{ id := 1, characterId := 5, rollType := .hit, result := some 7 }] ∧
    submitInteractionResultToOperation c1Store 0 c1Encounter c1Operation 1 5 7
        (fun _ _ => 0) (fun _ => 99) 10 =
      ({ c1Store with operations := [c1OperationAfter] }, .ok c1OperationAfter) := by
  decide

/-- C1 (amended): the ledger never checks whether an interaction's result is
already set; a second submission is rejected — with
`ConcurrentModificationDetected` from the CAS on `modified_at` — exactly when
the submitted operation copy is stale, while a submission carrying the
re-fetched, current operation succeeds and overwrites the stored result. -/
theorem interactionResult_writeOnce_only_for_stale
    (s : Store) (campaignId : CampaignId) (encounter : Encounter) (operation : Operation)
    (interactionId : InteractionId) (characterId : CharacterId) (result : Int)
    (dist : Position → Position → Rat) (freshIds : Nat → InteractionId) (now : Timestamp)
    (index : Nat) (interaction : Interaction)
    (hfind : operation.interactions.enum.find? (fun ii => decide (ii.2.id = interactionId)) =
      some (index, interaction))
    (hchar : interaction.characterId = characterId)
    (hplain : ∀ a, operation.operationType ≠ OperationType.action a) :
    ((∀ op ∈ s.operations, op.id = operation.id → op.modifiedAt ≠ operation.modifiedAt) →
      submitInteractionResultToOperation s campaignId encounter operation interactionId
        characterId result dist freshIds now = (s, .error .concurrentModificationDetected)) ∧
    (operation ∈ s.operations →
      (submitInteractionResultToOperation s campaignId encounter operation interactionId
        characterId result dist freshIds now).2 =
        .ok { operation with
              modifiedAt := now,
              interactions := setInteractionResult operation.interactions index result }) := by
  have hdispatch :
      (match operation.operationType with
        | OperationType.action (Action.attack attack) =>
          Attack.handleInteractionResult s attack campaignId interaction result (freshIds 0) now
        | OperationType.action (Action.castSpell cast) =>
          Cast.handleInteractionResult s cast campaignId encounter operation interaction result
            dist freshIds now
        | _ => (s, Except.ok ([] : List Interaction))) = (s, .ok ([] : List Interaction)) := by
    cases hop : operation.operationType with
    | action a =>
      exact absurd hop (hplain a)
    | move m => rfl
    | bonus n => rfl
    | roll r res => rfl
  constructor
  · intro hstale
    unfold submitInteractionResultToOperation
    rw [hfind]
    simp only [hchar, ne_eq, not_true_eq_false, if_false, hdispatch]
    unfold updateOperationInteractionResult
    rw [if_neg]
    intro hany
    rw [List.any_eq_true] at hany
    obtain ⟨op, hopmem, hop⟩ := hany
    simp only [decide_eq_true_eq] at hop
    exact hstale op hopmem hop.1 hop.2
  · intro hmem
    unfold submitInteractionResultToOperation
    rw [hfind]
    simp only [hchar, ne_eq, not_true_eq_false, if_false, hdispatch]
    unfold updateOperationInteractionResult
    rw [if_pos (List.any_eq_true.mpr ⟨operation, hmem, by simp⟩)]

/-- Witness for the amended C1: a concrete stale second submission is rejected
by the CAS. -/
theorem interactionResult_writeOnce_only_for_stale_witness :
    submitInteractionResultToOperation c1Store 0 c1Encounter
        { c1Operation with modifiedAt := 99 } 1 5 7 (fun _ _ => 0) (fun _ => 99) 10 =
      (c1Store, .error .concurrentModificationDetected) :=
  (interactionResult_writeOnce_only_for_stale c1Store 0 c1Encounter
      { c1Operation with modifiedAt := 99 } 1 5 7 (fun _ _ => 0) (fun _ => 99) 10 0
      c1Interaction (by decide) (by decide)
      (fun a h => OperationType.noConfusion h)).1 (by decide)

/-! ### C3: begin transitions exactly when every roster character rolled -/

theorem updateEncounterStateAndCharacters_success {s : Store} {e : Encounter}
    {st : EncounterState} {ids : List CharacterId} {now : Timestamp}
    (hmem : e ∈ s.encounters) :
    updateEncounterStateAndCharacters s e st ids now =
      ({ s with encounters := s.encounters.map (fun x =>
          if x.id = e.id ∧ x.modifiedAt = e.modifiedAt then
            { x with modifiedAt := now, state := st, characterIds := ids } else x) },
       .ok { e with modifiedAt := now, state := st, characterIds := ids }) := by
  unfold updateEncounterStateAndCharacters
  rw [if_pos (List.any_eq_true.mpr ⟨e, hmem, by simp⟩)]

/-- C3: `begin_current_encounter_in_campaign` transitions the current encounter
out of Initiative exactly when every roster character has a recorded initiative
roll; otherwise it fails listing exactly the roster character ids without such
a roll, and an empty roster fails with `NoCharactersInEncounter`.  On success
the state becomes `Turn{round: 0, character_id: first-in-order}` and
`character_ids` is overwritten with the turn order: a permutation of the roster
sorted in descending order of the characters' initiative roll results.  The
hypotheses record the two facts `submit_roll` enforces for the encounter's roll
operations: every initiative roll belongs to a roster character, and no
character rolled twice; rosters hold distinct character ids. -/
theorem begin_transitions_iff_all_rolled
    {s : Store} {campaignId : CampaignId} {now : Timestamp} {encounter : Encounter}
    (hcur : fetchCurrentEncounterByCampaign s campaignId = some encounter)
    (hroster : ∀ cr ∈ initiativeRollsOf s encounter.id, cr.1 ∈ encounter.characterIds)
    (honce : ((initiativeRollsOf s encounter.id).map Prod.fst).Nodup)
    (hnodup : encounter.characterIds.Nodup) :
    (uninitiatedCharacterIdsOf s encounter ≠ [] →
      beginCurrentEncounterInCampaign s campaignId now =
        (s, .error (.charactersHaveNotRolledInitiative campaignId encounter.id
          (uninitiatedCharacterIdsOf s encounter)))) ∧
    (encounter.characterIds = [] →
      beginCurrentEncounterInCampaign s campaignId now =
        (s, .error (.noCharactersInEncounter campaignId encounter.id))) ∧
    (uninitiatedCharacterIdsOf s encounter = [] → encounter.characterIds ≠ [] →
      ∃ s' firstCharacter,
        beginCurrentEncounterInCampaign s campaignId now =
          (s', .ok (turnOrderOf s encounter.id)) ∧
        (turnOrderOf s encounter.id).head? = some firstCharacter ∧
        (turnOrderOf s encounter.id).Perm encounter.characterIds ∧
        (∃ ranked : List (CharacterId × Int),
          ranked.map Prod.fst = turnOrderOf s encounter.id ∧
          ranked.Perm (initiativeRollsOf s encounter.id) ∧
          ranked.Pairwise (fun a b => b.2 ≤ a.2)) ∧
        { encounter with
          modifiedAt := now,
          state := EncounterState.turn 0 firstCharacter,
          characterIds := turnOrderOf s encounter.id } ∈ s'.encounters) := by
  have hmem : encounter ∈ s.encounters :=
    List.mem_of_find?_eq_some (fetchCurrent_eq_some.mp hcur).1
  refine ⟨?_, ?_, ?_⟩
  · intro h1
    unfold beginCurrentEncounterInCampaign
    rw [hcur]
    simp only [if_pos h1]
  · intro hempty
    have huninit : uninitiatedCharacterIdsOf s encounter = [] := by
      unfold uninitiatedCharacterIdsOf
      rw [hempty]
      rfl
    have hrolls : initiativeRollsOf s encounter.id = [] := by
      rw [List.eq_nil_iff_forall_not_mem]
      intro cr hcr
      have := hroster cr hcr
      rw [hempty] at this
      exact List.not_mem_nil _ this
    have hto : turnOrderOf s encounter.id = [] := by
      unfold turnOrderOf
      rw [hrolls]
      rfl
    unfold beginCurrentEncounterInCampaign
    simp only [hcur]
    rw [if_neg (fun h => h huninit), hto]
    rfl
  · intro h0 hne
    -- every roster character has a roll
    have hall : ∀ c ∈ encounter.characterIds, hasInitiativeRoll s encounter.id c = true := by
      intro c hc
      have := List.filter_eq_nil_iff.mp h0 c hc
      simpa using this
    -- the turn order is a permutation of the rolls' characters
    have hranked_perm : ((initiativeRollsOf s encounter.id).insertionSort
        (fun a b => a.2 ≤ b.2)).reverse.Perm (initiativeRollsOf s encounter.id) :=
      (List.reverse_perm _).trans (List.perm_insertionSort _ _)
    have hperm_rolls : (turnOrderOf s encounter.id).Perm
        ((initiativeRollsOf s encounter.id).map Prod.fst) := by
      unfold turnOrderOf
      exact hranked_perm.map Prod.fst
    -- the rolls' characters are a permutation of the roster
    have hsub1 : ((initiativeRollsOf s encounter.id).map Prod.fst) ⊆ encounter.characterIds := by
      intro x hx
      obtain ⟨cr, hcr, rfl⟩ := List.mem_map.mp hx
      exact hroster cr hcr
    have hsub2 : encounter.characterIds ⊆ ((initiativeRollsOf s encounter.id).map Prod.fst) := by
      intro c hc
      have := hall c hc
      unfold hasInitiativeRoll at this
      rw [List.any_eq_true] at this
      obtain ⟨cr, hcr, hcrc⟩ := this
      simp only [decide_eq_true_eq] at hcrc
      exact List.mem_map.mpr ⟨cr, hcr, hcrc⟩
    have hperm_roster : ((initiativeRollsOf s encounter.id).map Prod.fst).Perm
        encounter.characterIds :=
      List.Subperm.antisymm (List.subperm_of_subset honce hsub1)
        (List.subperm_of_subset hnodup hsub2)
    have hperm : (turnOrderOf s encounter.id).Perm encounter.characterIds :=
      hperm_rolls.trans hperm_roster
    -- descending sortedness of the ranked list
    haveI hTotal : IsTotal (CharacterId × Int) (fun a b => a.2 ≤ b.2) :=
      ⟨fun a b => le_total a.2 b.2⟩
    haveI hTrans : IsTrans (CharacterId × Int) (fun a b => a.2 ≤ b.2) :=
      ⟨fun _ _ _ h1 h2 => le_trans h1 h2⟩
    have hsorted : (((initiativeRollsOf s encounter.id).insertionSort
        (fun a b => a.2 ≤ b.2)).reverse).Pairwise (fun a b => b.2 ≤ a.2) := by
      rw [List.pairwise_reverse]
      exact List.sorted_insertionSort _ _
    -- the turn order is nonempty
    have hto_ne : turnOrderOf s encounter.id ≠ [] := by
      intro hnil
      apply hne
      have := hperm.length_eq
      rw [hnil] at this
      exact List.eq_nil_of_length_eq_zero this.symm
    obtain ⟨firstCharacter, rest, hto⟩ := List.exists_cons_of_ne_nil hto_ne
    · have hhead : (turnOrderOf s encounter.id).head? = some firstCharacter := by
        rw [hto]
        rfl
      have hranked_map : (((initiativeRollsOf s encounter.id).insertionSort
          (fun a b => a.2 ≤ b.2)).reverse).map Prod.fst = turnOrderOf s encounter.id := rfl
      have hmain : beginCurrentEncounterInCampaign s campaignId now =
          ({ s with encounters := s.encounters.map (fun x =>
              if x.id = encounter.id ∧ x.modifiedAt = encounter.modifiedAt then
                { x with
                  modifiedAt := now,
                  state := EncounterState.turn 0 firstCharacter,
                  characterIds := firstCharacter :: rest } else x) },
           .ok (firstCharacter :: rest)) := by
        unfold beginCurrentEncounterInCampaign
        simp only [hcur]
        rw [if_neg (fun h => h h0), hto]
        simp only [List.head?_cons]
        rw [updateEncounterStateAndCharacters_success hmem]
      rw [← hto] at hmain
      refine ⟨_, firstCharacter, hmain, hhead, hperm,
        ⟨_, hranked_map, hranked_perm, hsorted⟩, ?_⟩
      exact List.mem_map.mpr ⟨encounter, hmem, by rw [if_pos ⟨rfl, rfl⟩]⟩

def c3Encounter : Encounter :=
  { id := 1, campaignId := 0, createdAt := 0, modifiedAt := 0, characterIds := [1, 2],
    state := .initiative }

def c3RollOperation1 : Operation :=
  { id := 11, campaignId := 0, encounterId := some 1, encounterState := some .initiative,
    characterId := 1, createdAt := 1, modifiedAt := 1,
    operationType := .roll .initiative 5, interactions := [], legality := .legal }

def c3RollOperation2 : Operation :=
  { id := 12, campaignId := 0, encounterId := some 1, encounterState := some .initiative,
    characterId := 2, createdAt := 2, modifiedAt := 2,
    operationType := .roll .initiative 17, interactions := [], legality := .legal }

def c3Store : Store :=
  { encounters := [c3Encounter],
    operations := [c3RollOperation2, c3RollOperation1], characters := [] }

/-- Witness for C3 at a concrete two-character store where both rolled. -/
theorem begin_transitions_iff_all_rolled_witness :
    (uninitiatedCharacterIdsOf c3Store c3Encounter ≠ [] →
      beginCurrentEncounterInCampaign c3Store 0 3 =
        (c3Store, .error (.charactersHaveNotRolledInitiative 0 c3Encounter.id
          (uninitiatedCharacterIdsOf c3Store c3Encounter)))) ∧
    (c3Encounter.characterIds = [] →
      beginCurrentEncounterInCampaign c3Store 0 3 =
        (c3Store, .error (.noCharactersInEncounter 0 c3Encounter.id))) ∧
    (uninitiatedCharacterIdsOf c3Store c3Encounter = [] → c3Encounter.characterIds ≠ [] →
      ∃ s' firstCharacter,
        beginCurrentEncounterInCampaign c3Store 0 3 =
          (s', .ok (turnOrderOf c3Store c3Encounter.id)) ∧
        (turnOrderOf c3Store c3Encounter.id).head? = some firstCharacter ∧
        (turnOrderOf c3Store c3Encounter.id).Perm c3Encounter.characterIds ∧
        (∃ ranked : List (CharacterId × Int),
          ranked.map Prod.fst = turnOrderOf c3Store c3Encounter.id ∧
          ranked.Perm (initiativeRollsOf c3Store c3Encounter.id) ∧
          ranked.Pairwise (fun a b => b.2 ≤ a.2)) ∧
        { c3Encounter with
          modifiedAt := 3,
          state := EncounterState.turn 0 firstCharacter,
          characterIds := turnOrderOf c3Store c3Encounter.id } ∈ s'.encounters) :=
  begin_transitions_iff_all_rolled (by decide) (by decide) (by decide) (by decide)

/-! ### C5 and C6: the movement gate -/

/-- C5: during a Turn, when the character's prior movement in the same round
and turn plus the requested feet exceeds the speed and `ignore_violations` is
false, the move fails carrying exactly the `CharacterMovementExceeded`
violation (maximum = speed, current = already moved, requested = distance),
and the store is returned unchanged: no operation inserted and the character's
position untouched. -/
theorem move_rejected_when_violations
    {s : Store} {campaignId : CampaignId} {encounter : Encounter}
    {characterId : CharacterId} {position : Position}
    {dist : Position → Position → Rat} {freshOpId : OperationId} {now : Timestamp}
    {currentCharacter : Character} {currentPosition : Position} {round : Int}
    (hchar : fetchCharacterByCampaignAndId s campaignId characterId = some currentCharacter)
    (hmem : characterId ∈ encounter.characterIds)
    (hpos : currentCharacter.position = some currentPosition)
    (hstate : encounter.state = EncounterState.turn round characterId)
    (hviol : (currentCharacter.stats.speed : Rat) <
      alreadyMovedFeet s encounter.id round characterId currentCharacter.id +
        dist currentPosition position) :
    moveInCurrentEncounterInCampaign s campaignId encounter characterId position false
        dist freshOpId now =
      (s, .error (.operationViolatesRules
        [.characterMovementExceeded characterId (currentCharacter.stats.speed : Rat)
          (alreadyMovedFeet s encounter.id round characterId currentCharacter.id)
          (dist currentPosition position)])) := by
  have hid : currentCharacter.id = characterId := by
    have h := List.find?_some hchar
    simp only [decide_eq_true_eq] at h
    exact h.2
  rw [hid] at hviol
  unfold moveInCurrentEncounterInCampaign
  simp only [hchar, hpos, hstate, hid, hmem, not_true_eq_false, if_false, ne_eq,
    not_false_eq_true, if_true]
  rw [if_pos hviol]
  simp

def c5Character : Character :=
  { id := 1, campaignId := 0, modifiedAt := 0,
    stats := { initiative := 0, speed := 30, armorClass := 10 },
    position := some { x := 0, y := 0, z := 0 },
    currentHitPoints := 10, maximumHitPoints := 10 }

def c5Encounter : Encounter :=
  { id := 1, campaignId := 0, createdAt := 0, modifiedAt := 0, characterIds := [1],
    state := .turn 0 1 }

def c5Store : Store :=
  { encounters := [c5Encounter], operations := [], characters := [c5Character] }

/-- A distance function measuring displacement along the x axis (used by the
witnesses; the source's Euclidean distance agrees on the points they use). -/
def xDist (p q : Position) : Rat := q.x - p.x

/-- Witness for C5: speed 30, request 35 ft, nothing already moved — the
request fails with `CharacterMovementExceeded{max: 30, current: 0,
requested: 35}` and the store is unchanged. -/
theorem move_rejected_when_violations_witness :
    moveInCurrentEncounterInCampaign c5Store 0 c5Encounter 1 { x := 35, y := 0, z := 0 }
        false xDist 7 1 =
      (c5Store, .error (.operationViolatesRules
        [.characterMovementExceeded 1 (c5Character.stats.speed : Rat)
          (alreadyMovedFeet c5Store c5Encounter.id 0 1 c5Character.id)
          (xDist { x := 0, y := 0, z := 0 } { x := 35, y := 0, z := 0 })])) ∧
    (c5Character.stats.speed : Rat) = 30 ∧
    alreadyMovedFeet c5Store c5Encounter.id 0 1 c5Character.id = 0 ∧
    xDist { x := 0, y := 0, z := 0 } { x := 35, y := 0, z := 0 } = 35 :=
  ⟨@move_rejected_when_violations c5Store 0 c5Encounter 1
      { x := 35, y := 0, z := 0 } xDist 7 1 c5Character { x := 0, y := 0, z := 0 } 0
      (by decide) (by decide) (by decide) (by decide)
      (by simp [alreadyMovedFeet, fetchOperationsByTurn, c5Store, xDist, c5Character]
          decide),
   by simp [c5Character],
   by simp [alreadyMovedFeet, fetchOperationsByTurn, c5Store],
   by simp [xDist]⟩

theorem find?_map_of_pred_invariant {α : Type} (f : α → α) (p : α → Bool) {l : List α} {a : α}
    (hp : ∀ x, p (f x) = p x) (h : l.find? p = some a) :
    (l.map f).find? p = some (f a) := by
  rw [List.find?_map, show (p ∘ f) = p from funext hp, h]
  rfl

theorem updateCharacterPosition_success {s : Store} {c : Character} {pos : Option Position}
    {now : Timestamp} (hmem : c ∈ s.characters) :
    updateCharacterPosition s c pos now =
      ({ s with characters := s.characters.map (fun x =>
          if x.id = c.id ∧ x.modifiedAt = c.modifiedAt then
            { x with modifiedAt := now, position := pos } else x) },
       .ok { c with modifiedAt := now, position := pos }) := by
  unfold updateCharacterPosition
  rw [if_pos (List.any_eq_true.mpr ⟨c, hmem, by simp⟩)]

/-- The store after an accepted move: the Move operation inserted and the
character's position CAS-updated to the requested point. -/
def movedStore (s : Store) (campaignId : CampaignId) (encounter : Encounter)
    (characterId : CharacterId) (position : Position) (feet : Rat)
    (freshOpId : OperationId) (now : Timestamp) (violations : List Violation)
    (currentCharacter : Character) : Store :=
  { s with
    operations := moveOperation campaignId encounter characterId position feet freshOpId now
      violations :: s.operations,
    characters := s.characters.map (fun c =>
      if c.id = currentCharacter.id ∧ c.modifiedAt = currentCharacter.modifiedAt then
        { c with modifiedAt := now, position := some position } else c) }

/-- C6: every accepted move — empty violation set, or a non-empty one with
`ignore_violations = true` — persists a Move operation whose legality is
`Legal` exactly when the violation set is empty and `IllegalPending` carrying
exactly the violations otherwise, and in both cases the character's stored
position becomes the requested point (even when the operation is
illegal-pending). -/
theorem move_accepted_persists_and_updates_position
    {s : Store} {campaignId : CampaignId} {encounter : Encounter}
    {characterId : CharacterId} {position : Position} {ignoreViolations : Bool}
    {dist : Position → Position → Rat} {freshOpId : OperationId} {now : Timestamp}
    {currentCharacter : Character} {currentPosition : Position}
    (hchar : fetchCharacterByCampaignAndId s campaignId characterId = some currentCharacter)
    (hmem : characterId ∈ encounter.characterIds)
    (hpos : currentCharacter.position = some currentPosition) :
    ∀ violations : List Violation,
      ((encounter.state = EncounterState.initiative ∧ violations = []) ∨
       (∃ round, encounter.state = EncounterState.turn round characterId ∧
         ((¬ ((currentCharacter.stats.speed : Rat) <
             alreadyMovedFeet s encounter.id round characterId currentCharacter.id +
               dist currentPosition position) ∧ violations = []) ∨
          ((currentCharacter.stats.speed : Rat) <
             alreadyMovedFeet s encounter.id round characterId currentCharacter.id +
               dist currentPosition position ∧ ignoreViolations = true ∧
           violations = [.characterMovementExceeded characterId
             (currentCharacter.stats.speed : Rat)
             (alreadyMovedFeet s encounter.id round characterId currentCharacter.id)
             (dist currentPosition position)])))) →
      moveInCurrentEncounterInCampaign s campaignId encounter characterId position
          ignoreViolations dist freshOpId now =
        (movedStore s campaignId encounter characterId position
          (dist currentPosition position) freshOpId now violations currentCharacter,
         .ok (moveOperation campaignId encounter characterId position
           (dist currentPosition position) freshOpId now violations)) ∧
      (violations = [] →
        (moveOperation campaignId encounter characterId position
          (dist currentPosition position) freshOpId now violations).legality =
          Legality.legal) ∧
      (violations ≠ [] →
        (moveOperation campaignId encounter characterId position
          (dist currentPosition position) freshOpId now violations).legality =
          Legality.illegalPending violations) ∧
      fetchCharacterByCampaignAndId
          (movedStore s campaignId encounter characterId position
            (dist currentPosition position) freshOpId now violations currentCharacter)
          campaignId characterId =
        some { currentCharacter with modifiedAt := now, position := some position } := by
  have hid : currentCharacter.id = characterId := by
    have h := List.find?_some hchar
    simp only [decide_eq_true_eq] at h
    exact h.2
  have hcmem : currentCharacter ∈ s.characters := List.mem_of_find?_eq_some hchar
  intro violations hcase
  have hfetchAfter : fetchCharacterByCampaignAndId
      (movedStore s campaignId encounter characterId position
        (dist currentPosition position) freshOpId now violations currentCharacter)
      campaignId characterId =
      some { currentCharacter with modifiedAt := now, position := some position } := by
    unfold fetchCharacterByCampaignAndId at hchar ⊢
    show (s.characters.map _).find? _ = _
    rw [find?_map_of_pred_invariant _ _ (fun x => by
      by_cases hc : x.id = currentCharacter.id ∧ x.modifiedAt = currentCharacter.modifiedAt
      · rw [if_pos hc]
      · rw [if_neg hc]) hchar]
    rw [if_pos ⟨rfl, rfl⟩]
  have hlegal : violations = [] →
      (moveOperation campaignId encounter characterId position
        (dist currentPosition position) freshOpId now violations).legality =
        Legality.legal := by
    intro hv
    unfold moveOperation
    rw [if_pos hv]
  have hillegal : violations ≠ [] →
      (moveOperation campaignId encounter characterId position
        (dist currentPosition position) freshOpId now violations).legality =
        Legality.illegalPending violations := by
    intro hv
    unfold moveOperation
    rw [if_neg hv]
  have hupdate := @updateCharacterPosition_success
    (insertOperation s (moveOperation campaignId encounter characterId position
      (dist currentPosition position) freshOpId now violations))
    currentCharacter (some position) now hcmem
  refine ⟨?_, hlegal, hillegal, hfetchAfter⟩
  rcases hcase with ⟨hstate, hv⟩ | ⟨round, hstate, hsub⟩
  · subst hv
    unfold moveInCurrentEncounterInCampaign
    simp only [hchar, hpos, hstate, hmem, not_true_eq_false, if_false, ne_eq,
      not_false_eq_true, if_true, and_false, ite_false]
    rw [hupdate]
    rfl
  · rcases hsub with ⟨hnoviol, hv⟩ | ⟨hviol, hignore, hv⟩
    · subst hv
      unfold moveInCurrentEncounterInCampaign
      simp only [hchar, hpos, hstate, hmem, not_true_eq_false, if_false, ne_eq,
        not_false_eq_true, if_true]
      rw [if_neg (fun h => h hid)]
      rw [if_neg hnoviol]
      simp only [ne_eq, not_true_eq_false, and_false, ite_false]
      rw [hupdate]
      rfl
    · subst hv hignore
      unfold moveInCurrentEncounterInCampaign
      simp only [hchar, hpos, hstate, hmem, not_true_eq_false, if_false, ne_eq,
        not_false_eq_true, if_true]
      rw [if_neg (fun h => h hid)]
      rw [if_pos hviol]
      simp only [not_true_eq_false, false_and, ite_false]
      rw [hupdate]
      rfl

def c6Position : Position := { x := 35, y := 0, z := 0 }

def c6Origin : Position := { x := 0, y := 0, z := 0 }

/-- The violation list of the C6 witness scenario. -/
def c6Violations : List Violation :=
  [.characterMovementExceeded 1 (c5Character.stats.speed : Rat)
    (alreadyMovedFeet c5Store c5Encounter.id 0 1 c5Character.id)
    (xDist c6Origin c6Position)]

/-- Witness for C6: the C5 scenario resubmitted with `ignore_violations = true`
persists the operation as `IllegalPending` and the position is updated. -/
theorem move_accepted_persists_and_updates_position_witness :
    (moveInCurrentEncounterInCampaign c5Store 0 c5Encounter 1 c6Position
        true xDist 7 1 =
      (movedStore c5Store 0 c5Encounter 1 c6Position
        (xDist c6Origin c6Position) 7 1 c6Violations
        c5Character,
       .ok (moveOperation 0 c5Encounter 1 c6Position
        (xDist c6Origin c6Position) 7 1 c6Violations))) ∧
    (c6Violations = [] →
      (moveOperation 0 c5Encounter 1 c6Position
        (xDist c6Origin c6Position) 7 1
        c6Violations).legality = Legality.legal) ∧
    (c6Violations ≠ [] →
      (moveOperation 0 c5Encounter 1 c6Position
        (xDist c6Origin c6Position) 7 1
        c6Violations).legality = Legality.illegalPending c6Violations) ∧
    fetchCharacterByCampaignAndId
        (movedStore c5Store 0 c5Encounter 1 c6Position
          (xDist c6Origin c6Position) 7 1 c6Violations
          c5Character) 0 1 =
      some { c5Character with modifiedAt := 1, position := some c6Position } :=
  move_accepted_persists_and_updates_position (by decide) (by decide) (by decide)
    c6Violations
    (Or.inr ⟨0, rfl, Or.inr ⟨by
      simp [alreadyMovedFeet, fetchOperationsByTurn, c5Store, xDist, c5Character,
        c6Position, c6Origin]
      decide, rfl, rfl⟩⟩)

/-! ### C7 and C8: the attack interaction resolver -/

theorem updateCharacterHitPoints_success {s : Store} {c : Character} {hp : Int}
    {now : Timestamp} (hmem : c ∈ s.characters) :
    updateCharacterHitPoints s c hp now =
      ({ s with characters := s.characters.map (fun x =>
          if x.id = c.id ∧ x.modifiedAt = c.modifiedAt then
            { x with modifiedAt := now, currentHitPoints := hp } else x) },
       .ok { c with modifiedAt := now, currentHitPoints := hp }) := by
  unfold updateCharacterHitPoints
  rw [if_pos (List.any_eq_true.mpr ⟨c, hmem, by simp⟩)]

/-- C7: on a `Hit` interaction result for an Attack, exactly one new `Damage`
interaction — assigned to the attacker, the character of the resolved Hit
interaction — is produced iff the result is at least the target's armor class
(AC-inclusive); when the result is strictly below the armor class no
interaction is produced; the store is unchanged either way. -/
theorem attack_hit_seeds_damage_iff_meets_ac
    {s : Store} {attack : Attack} {campaignId : CampaignId} {interaction : Interaction}
    {result : Int} {freshId : InteractionId} {now : Timestamp}
    {targetCharacterId : CharacterId} {targetCharacter : Character}
    (htargets : attack.targets = [targetCharacterId])
    (hfetch : fetchCharacterByCampaignAndId s campaignId targetCharacterId =
      some targetCharacter)
    (hroll : interaction.rollType = RollType.hit) :
    (targetCharacter.stats.armorClass ≤ result →
      Attack.handleInteractionResult s attack campaignId interaction result freshId now =
        (s, .ok [{ id := freshId, characterId := interaction.characterId,
                   rollType := .damage, result := Option.none }])) ∧
    (result < targetCharacter.stats.armorClass →
      Attack.handleInteractionResult s attack campaignId interaction result freshId now =
        (s, .ok [])) := by
  constructor
  · intro h
    unfold Attack.handleInteractionResult
    simp only [hroll, htargets, List.head?_cons, hfetch]
    rw [if_pos h]
  · intro h
    unfold Attack.handleInteractionResult
    simp only [hroll, htargets, List.head?_cons, hfetch]
    rw [if_neg (not_le.mpr h)]

def c7Target : Character :=
  { id := 2, campaignId := 0, modifiedAt := 0,
    stats := { initiative := 0, speed := 30, armorClass := 15 },
    position := some { x := 0, y := 0, z := 0 },
    currentHitPoints := 10, maximumHitPoints := 10 }

def c7Store : Store := { encounters := [], operations := [], characters := [c7Target] }

def c7Attack : Attack := { method := .unarmed, targets := [2] }

def c7HitInteraction : Interaction :=
  { id := 1, characterId := 5, rollType := .hit, result := Option.none }

/-- Witness for C7: a Hit result of 15 against armor class 15 seeds exactly one
Damage interaction for the attacker; a result of 14 seeds none. -/
theorem attack_hit_seeds_damage_iff_meets_ac_witness :
    Attack.handleInteractionResult c7Store c7Attack 0 c7HitInteraction 15 9 1 =
      (c7Store, .ok [{ id := 9, characterId := 5,
                       rollType := .damage, result := Option.none }]) ∧
    Attack.handleInteractionResult c7Store c7Attack 0 c7HitInteraction 14 9 1 =
      (c7Store, .ok []) :=
  ⟨(@attack_hit_seeds_damage_iff_meets_ac c7Store c7Attack 0 c7HitInteraction 15 9 1 2
      c7Target (by decide) (by decide) (by decide)).1 (by decide),
   (@attack_hit_seeds_damage_iff_meets_ac c7Store c7Attack 0 c7HitInteraction 14 9 1 2
      c7Target (by decide) (by decide) (by decide)).2 (by decide)⟩

/-- C8: on a `Damage` interaction result for an Attack, the target character's
stored hit points become max(old − result, 0) — the result is subtracted and
floored at zero, so hit points are never negative — and no further
interactions are produced. -/
theorem attack_damage_floors_at_zero
    {s : Store} {attack : Attack} {campaignId : CampaignId} {interaction : Interaction}
    {result : Int} {freshId : InteractionId} {now : Timestamp}
    {targetCharacterId : CharacterId} {targetCharacter : Character}
    (htargets : attack.targets = [targetCharacterId])
    (hfetch : fetchCharacterByCampaignAndId s campaignId targetCharacterId =
      some targetCharacter)
    (hroll : interaction.rollType = RollType.damage) :
    Attack.handleInteractionResult s attack campaignId interaction result freshId now =
      ({ s with characters := s.characters.map (fun c =>
          if c.id = targetCharacter.id ∧ c.modifiedAt = targetCharacter.modifiedAt then
            { c with modifiedAt := now,
                     currentHitPoints := max (targetCharacter.currentHitPoints - result) 0 }
          else c) },
       .ok []) ∧
    fetchCharacterByCampaignAndId
        { s with characters := s.characters.map (fun c =>
          if c.id = targetCharacter.id ∧ c.modifiedAt = targetCharacter.modifiedAt then
            { c with modifiedAt := now,
                     currentHitPoints := max (targetCharacter.currentHitPoints - result) 0 }
          else c) } campaignId targetCharacterId =
      some { targetCharacter with
             modifiedAt := now,
             currentHitPoints := max (targetCharacter.currentHitPoints - result) 0 } ∧
    0 ≤ max (targetCharacter.currentHitPoints - result) 0 := by
  have hcmem : targetCharacter ∈ s.characters := List.mem_of_find?_eq_some hfetch
  refine ⟨?_, ?_, le_max_right _ _⟩
  · unfold Attack.handleInteractionResult
    simp only [hroll, htargets, List.head?_cons, hfetch]
    rw [updateCharacterHitPoints_success hcmem]
  · unfold fetchCharacterByCampaignAndId at hfetch ⊢
    show (s.characters.map _).find? _ = _
    rw [find?_map_of_pred_invariant _ _ (fun x => by
      by_cases hc : x.id = targetCharacter.id ∧ x.modifiedAt = targetCharacter.modifiedAt
      · rw [if_pos hc]
      · rw [if_neg hc]) hfetch]
    rw [if_pos ⟨rfl, rfl⟩]

def c8DamageInteraction : Interaction :=
  { id := 1, characterId := 5, rollType := .damage, result := Option.none }

/-- Witness for C8: damage 20 against 10 HP floors the stored hit points at 0
(and 10 − 8 would leave 2). -/
theorem attack_damage_floors_at_zero_witness :
    (Attack.handleInteractionResult c7Store c7Attack 0 c8DamageInteraction 20 9 1 =
      ({ c7Store with characters := c7Store.characters.map (fun c =>
          if c.id = c7Target.id ∧ c.modifiedAt = c7Target.modifiedAt then
            { c with modifiedAt := 1,
                     currentHitPoints := max (c7Target.currentHitPoints - 20) 0 }
          else c) },
       .ok []) ∧
    fetchCharacterByCampaignAndId
        { c7Store with characters := c7Store.characters.map (fun c =>
          if c.id = c7Target.id ∧ c.modifiedAt = c7Target.modifiedAt then
            { c with modifiedAt := 1,
                     currentHitPoints := max (c7Target.currentHitPoints - 20) 0 }
          else c) } 0 2 =
      some { c7Target with
             modifiedAt := 1,
             currentHitPoints := max (c7Target.currentHitPoints - 20) 0 } ∧
    0 ≤ max (c7Target.currentHitPoints - 20) 0) ∧
    max (c7Target.currentHitPoints - 20) 0 = 0 ∧
    max (c7Target.currentHitPoints - 8) 0 = 2 :=
  ⟨attack_damage_floors_at_zero (by decide) (by decide) (by decide), by decide, by decide⟩

/-! ### C9 and C10: the Fireball interaction resolver -/

/-- C9: on a Dexterity-Save result for a Fireball cast, the damage pool is the
result already recorded on the same operation's first `Damage` interaction;
the saving character's stored hit points are reduced — floored at 0 — by
pool/2 with truncating integer division when the save result meets the fixed
difficulty class 8, and by the full pool otherwise; no further interactions
are produced. -/
theorem fireball_save_halves_pool
    {s : Store} {cast : Cast} {campaignId : CampaignId} {encounter : Encounter}
    {operation : Operation} {interaction : Interaction} {result : Int}
    {dist : Position → Position → Rat} {freshIds : Nat → InteractionId} {now : Timestamp}
    {targetCharacter : Character} {damageInteraction : Interaction} {maxDamage : Int}
    (hspell : cast.spell = "Fireball")
    (hroll : interaction.rollType = RollType.dexteritySave)
    (hfetch : fetchCharacterByCampaignAndId s campaignId interaction.characterId =
      some targetCharacter)
    (hdmg : operation.interactions.find? (fun i => decide (i.rollType = RollType.damage)) =
      some damageInteraction)
    (hres : damageInteraction.result = some maxDamage) :
    (8 ≤ result →
      Cast.handleInteractionResult s cast campaignId encounter operation interaction result
          dist freshIds now =
        ({ s with characters := s.characters.map (fun c =>
            if c.id = targetCharacter.id ∧ c.modifiedAt = targetCharacter.modifiedAt then
              { c with
                modifiedAt := now,
                currentHitPoints :=
                  max (targetCharacter.currentHitPoints - Int.tdiv maxDamage 2) 0 }
            else c) },
         .ok [])) ∧
    (result < 8 →
      Cast.handleInteractionResult s cast campaignId encounter operation interaction result
          dist freshIds now =
        ({ s with characters := s.characters.map (fun c =>
            if c.id = targetCharacter.id ∧ c.modifiedAt = targetCharacter.modifiedAt then
              { c with
                modifiedAt := now,
                currentHitPoints := max (targetCharacter.currentHitPoints - maxDamage) 0 }
            else c) },
         .ok [])) := by
  have hcmem : targetCharacter ∈ s.characters := List.mem_of_find?_eq_some hfetch
  constructor
  · intro h
    unfold Cast.handleInteractionResult
    rw [if_pos hspell]
    simp only [hroll, hfetch, hdmg, hres]
    rw [if_pos h]
    rw [updateCharacterHitPoints_success hcmem]
  · intro h
    unfold Cast.handleInteractionResult
    rw [if_pos hspell]
    simp only [hroll, hfetch, hdmg, hres]
    rw [if_neg (not_le.mpr h)]
    rw [updateCharacterHitPoints_success hcmem]

def c9Saver : Character :=
  { id := 6, campaignId := 0, modifiedAt := 0,
    stats := { initiative := 0, speed := 30, armorClass := 12 },
    position := some { x := 0, y := 0, z := 0 },
    currentHitPoints := 10, maximumHitPoints := 10 }

def c9Store : Store := { encounters := [], operations := [], characters := [c9Saver] }

def c9Cast : Cast := { spell := "Fireball", target := .position { x := 0, y := 0, z := 0 } }

def c9DamageInteraction : Interaction :=
  { id := 1, characterId := 5, rollType := .damage, result := some 9 }

def c9SaveInteraction : Interaction :=
  { id := 2, characterId := 6, rollType := .dexteritySave, result := Option.none }

def c9Encounter : Encounter :=
  { id := 1, campaignId := 0, createdAt := 0, modifiedAt := 0, characterIds := [5, 6],
    state := .turn 0 5 }

def c9Operation : Operation :=
  { id := 1, campaignId := 0, encounterId := some 1, encounterState := some (.turn 0 5),
    characterId := 5, createdAt := 0, modifiedAt := 0,
    operationType := .action (.castSpell c9Cast),
    interactions := [c9DamageInteraction, c9SaveInteraction], legality := .legal }

/-- Witness for C9: a successful save (8) against a 9-damage pool deals
tdiv 9 2 = 4 (10 → 6 HP); the failed-save half would deal the full 9. -/
theorem fireball_save_halves_pool_witness :
    (Cast.handleInteractionResult c9Store c9Cast 0 c9Encounter c9Operation
        c9SaveInteraction 8 xDist (fun n => 90 + n) 1 =
      ({ c9Store with characters := c9Store.characters.map (fun c =>
          if c.id = c9Saver.id ∧ c.modifiedAt = c9Saver.modifiedAt then
            { c with
              modifiedAt := 1,
              currentHitPoints := max (c9Saver.currentHitPoints - Int.tdiv 9 2) 0 }
          else c) },
       .ok [])) ∧
    max (c9Saver.currentHitPoints - Int.tdiv 9 2) 0 = 6 :=
  ⟨(@fireball_save_halves_pool c9Store c9Cast 0 c9Encounter c9Operation c9SaveInteraction 8
      xDist (fun n => 90 + n) 1 c9Saver c9DamageInteraction 9
      (by decide) (by decide) (by decide) (by decide) (by decide)).1 (by decide),
   by decide⟩

/-- Whether a character of the campaign lies within the 20-ft Fireball blast
radius of the target point: its record is found, its position is set, and the
distance from that position to the target point is at most 20. -/
def inFireballRange (s : Store) (campaignId : CampaignId)
    (dist : Position → Position → Rat) (targetPosition : Position)
    (characterId : CharacterId) : Bool :=
  match fetchCharacterByCampaignAndId s campaignId characterId with
  | some character =>
    match character.position with
    | some characterPosition => decide (dist characterPosition targetPosition ≤ 20)
    | Option.none => false
  | Option.none => false

theorem fetchCharactersInEncounter_ok {s : Store} {campaignId : CampaignId}
    {ids : List CharacterId}
    (hall : ∀ chId ∈ ids, (fetchCharacterByCampaignAndId s campaignId chId).isSome) :
    ∃ cs, fetchCharactersInEncounter s campaignId ids = .ok cs ∧
      cs.map Character.id = ids ∧
      ∀ c ∈ cs, fetchCharacterByCampaignAndId s campaignId c.id = some c := by
  induction ids with
  | nil => exact ⟨[], rfl, rfl, fun c h => absurd h (List.not_mem_nil c)⟩
  | cons chId rest ih =>
    obtain ⟨c, hc⟩ := Option.isSome_iff_exists.mp (hall chId (List.mem_cons_self chId rest))
    obtain ⟨cs, hcs, hmap, hfetchall⟩ := ih (fun x hx => hall x (List.mem_cons_of_mem _ hx))
    have hcid : c.id = chId := by
      have h := List.find?_some hc
      simp only [decide_eq_true_eq] at h
      exact h.2
    refine ⟨c :: cs, ?_, ?_, ?_⟩
    · unfold fetchCharactersInEncounter
      rw [hc, hcs]
    · simp [hcid, hmap]
    · intro x hx
      rcases List.mem_cons.mp hx with rfl | hx2
      · rw [hcid]
        exact hc
      · exact hfetchall x hx2

/-- C10: on a Damage result for a Fireball cast, one Dexterity-Save
interaction is seeded for exactly those encounter members whose position is
set and lies within 20 feet of the target point, in roster order; a member
whose position is absent is silently excluded (the call still succeeds), and
the caster — the character of the resolved Damage interaction — is included
whenever it is a member in range; the store is unchanged. -/
theorem fireball_blast_targets_members_in_range
    {s : Store} {cast : Cast} {campaignId : CampaignId} {encounter : Encounter}
    {operation : Operation} {interaction : Interaction} {result : Int}
    {dist : Position → Position → Rat} {freshIds : Nat → InteractionId} {now : Timestamp}
    {targetPosition : Position}
    (hspell : cast.spell = "Fireball")
    (hroll : interaction.rollType = RollType.damage)
    (htarget : cast.target = SpellTarget.position targetPosition)
    (hpresent : ∀ chId ∈ encounter.characterIds,
      (fetchCharacterByCampaignAndId s campaignId chId).isSome) :
    ∃ ints,
      Cast.handleInteractionResult s cast campaignId encounter operation interaction result
          dist freshIds now = (s, .ok ints) ∧
      ints.map (fun i => i.characterId) =
        encounter.characterIds.filter (inFireballRange s campaignId dist targetPosition) ∧
      (∀ i ∈ ints, i.rollType = RollType.dexteritySave ∧ i.result = Option.none) ∧
      (interaction.characterId ∈ encounter.characterIds →
        inFireballRange s campaignId dist targetPosition interaction.characterId = true →
        interaction.characterId ∈ ints.map (fun i => i.characterId)) := by
  obtain ⟨cs, hcs, hmap, hfetchall⟩ := fetchCharactersInEncounter_ok hpresent
  have hcong : ∀ c ∈ cs, (fun character : Character =>
      match character.position with
      | some characterPosition => decide (dist characterPosition targetPosition ≤ 20)
      | Option.none => false) c =
      (fun c : Character => inFireballRange s campaignId dist targetPosition c.id) c := by
    intro c hc
    show _ = inFireballRange s campaignId dist targetPosition c.id
    unfold inFireballRange
    rw [hfetchall c hc]
  have hfilter : (cs.filter (fun character : Character =>
      match character.position with
      | some characterPosition => decide (dist characterPosition targetPosition ≤ 20)
      | Option.none => false)).map Character.id =
      encounter.characterIds.filter (inFireballRange s campaignId dist targetPosition) := by
    rw [List.filter_congr hcong, ← hmap]
    exact (@List.filter_map Character CharacterId
      (inFireballRange s campaignId dist targetPosition) Character.id cs).symm
  have hints_map : ∀ l : List Character,
      ((l.enum.map (fun ic =>
        ({ id := freshIds ic.1,
           characterId := ic.2.id,
           rollType := RollType.dexteritySave,
           result := Option.none } : Interaction))).map
        (fun i => i.characterId)) = l.map Character.id := by
    intro l
    conv_rhs => rw [← List.enum_map_snd l]
    rw [List.map_map, List.map_map]
    rfl
  refine ⟨(cs.filter (fun character : Character =>
      match character.position with
      | some characterPosition => decide (dist characterPosition targetPosition ≤ 20)
      | Option.none => false)).enum.map (fun ic =>
        ({ id := freshIds ic.1,
           characterId := ic.2.id,
           rollType := RollType.dexteritySave,
           result := Option.none } : Interaction)), ?_, ?_, ?_, ?_⟩
  · unfold Cast.handleInteractionResult
    rw [if_pos hspell]
    simp only [hroll, htarget]
    rw [hcs]
  · rw [hints_map, hfilter]
  · intro i hi
    obtain ⟨ic, _, rfl⟩ := List.mem_map.mp hi
    exact ⟨rfl, rfl⟩
  · intro hmem hin
    rw [hints_map, hfilter]
    exact List.mem_filter.mpr ⟨hmem, hin⟩

def c10Target : Position := { x := 0, y := 0, z := 0 }

def c10Caster : Character :=
  { id := 5, campaignId := 0, modifiedAt := 0,
    stats := { initiative := 0, speed := 30, armorClass := 10 },
    position := some { x := 1, y := 0, z := 0 },
    currentHitPoints := 10, maximumHitPoints := 10 }

def c10NoPosition : Character :=
  { id := 6, campaignId := 0, modifiedAt := 0,
    stats := { initiative := 0, speed := 30, armorClass := 10 },
    position := Option.none,
    currentHitPoints := 10, maximumHitPoints := 10 }

def c10Far : Character :=
  { id := 7, campaignId := 0, modifiedAt := 0,
    stats := { initiative := 0, speed := 30, armorClass := 10 },
    position := some { x := 30, y := 0, z := 0 },
    currentHitPoints := 10, maximumHitPoints := 10 }

def c10Encounter : Encounter :=
  { id := 1, campaignId := 0, createdAt := 0, modifiedAt := 0, characterIds := [5, 6, 7],
    state := .turn 0 5 }

def c10Store : Store :=
  { encounters := [c10Encounter], operations := [],
    characters := [c10Caster, c10NoPosition, c10Far] }

def c10Cast : Cast := { spell := "Fireball", target := .position c10Target }

def c10DamageInteraction : Interaction :=
  { id := 1, characterId := 5, rollType := .damage, result := Option.none }

def c10Operation : Operation :=
  { id := 1, campaignId := 0, encounterId := some 1, encounterState := some (.turn 0 5),
    characterId := 5, createdAt := 0, modifiedAt := 0,
    operationType := .action (.castSpell c10Cast),
    interactions := [c10DamageInteraction], legality := .legal }

/-- A distance function used by the C10 witness: reads the first position's x
coordinate (the theorem holds for every distance function, so any concrete
choice exercises it). -/
def xOf (p _other : Position) : Rat := p.x

/-- Witness for C10: among members caster (x = 1, in range), one without a
position (silently excluded) and one out of range (x = 30), exactly the caster
receives a Dexterity-Save interaction. -/
theorem fireball_blast_targets_members_in_range_witness :
    (∃ ints,
      Cast.handleInteractionResult c10Store c10Cast 0 c10Encounter c10Operation
          c10DamageInteraction 9 xOf (fun n => 80 + n) 1 = (c10Store, .ok ints) ∧
      ints.map (fun i => i.characterId) =
        c10Encounter.characterIds.filter (inFireballRange c10Store 0 xOf c10Target) ∧
      (∀ i ∈ ints, i.rollType = RollType.dexteritySave ∧ i.result = Option.none) ∧
      (c10DamageInteraction.characterId ∈ c10Encounter.characterIds →
        inFireballRange c10Store 0 xOf c10Target c10DamageInteraction.characterId = true →
        c10DamageInteraction.characterId ∈ ints.map (fun i => i.characterId))) ∧
    c10Encounter.characterIds.filter (inFireballRange c10Store 0 xOf c10Target) = [5] :=
  ⟨fireball_blast_targets_members_in_range (by decide) (by decide) (by decide) (by decide),
   by decide⟩

end Kmdnd
